import Mathlib

/-!
Verification of the runtime component pipeline of the `ui_maddness` repository
(security validator, runtime JSX compiler, panel registry, HMR manager, AI
component generator), as a shallow embedding in Lean 4.

Sources embedded here:
  * `CodeValidator` (`src/core/hmr/code-validator` part of `hmr-manager.ts`):
    `validateJSX` and its step functions, `sanitizeCode` / `wrapWithErrorBoundary`.
  * `RuntimeJSXCompiler` (`runtime-compiler`): `compileComponent`,
    `extractComponentName`, `extractDependencies`, `cleanupModuleUrl`.
  * `EnhancedPanelRegistry` (`panel-registry`): `registerPanelFromJSX`,
    `updatePanel`, `removePanel`, `getPanel`, `getComponent`, `getStats`.
  * `DynamicHMRManager` (`hmr-manager`): `updateComponent`, `handleUpdateFailure`.
  * `AIComponentGenerator`: `generatePanelId`, `simpleHash`.

JavaScript regular expressions used by the source are embedded by a small
backtracking matcher (`RItem` / `matchItems`) whose search order mirrors the
ECMAScript algorithm (leftmost match; alternatives and quantifier lengths tried
in ECMAScript order).  Regexes compiled with the `g` flag and used via
`RegExp.prototype.test` are stateful in JavaScript (they advance `lastIndex`);
that state is modelled explicitly (`jsTestG`, the validator's pattern-state).

A central fact about the source, used throughout: `validateSizeAndComplexity`
executes `new RegExp("\\b" + keyword + "\\b", "g")` for each keyword in
`['if','else','while','for','switch','case','&&','||','?']`.  For the keyword
`'?'` this constructs the pattern `\b?\b`, and a quantifier applied to the
assertion `\b` is a SyntaxError in ECMAScript (`\b` is not a
QuantifiableAssertion, in the main grammar or in Annex B).  The constructor
therefore throws on every call, the exception propagates to `validateJSX`'s
`catch`, and every `validateJSX` call returns
`{ isValid: false, errors: ["Validation error: " + String(error)], warnings }`,
discarding the error list accumulated by steps 1-4.  The thrown error's string
form is engine specific; `complexityRegexError` below records V8's wording.
-/

set_option maxRecDepth 16000

namespace UIMadness

/-! ## Generic list helpers (JS `Map` as an insertion-ordered association list,
JS `Set` as a duplicate-free list, substring containment for `String.includes`). -/

/-- Lookup in an association list (JS `Map.get`). -/
def lookupA {α : Type} : List (String × α) → String → Option α
  | [], _ => none
  | (k, v) :: rest, key => if k == key then some v else lookupA rest key

/-- Insert/overwrite in an association list (JS `Map.set`): an existing key keeps
its position, a new key is appended (JS `Map` preserves insertion order). -/
def setA {α : Type} : List (String × α) → String → α → List (String × α)
  | [], key, v => [(key, v)]
  | (k, w) :: rest, key, v =>
    if k == key then (k, v) :: rest else (k, w) :: setA rest key v

/-- Delete from an association list (JS `Map.delete`); no-op when absent. -/
def eraseA {α : Type} : List (String × α) → String → List (String × α)
  | [], _ => []
  | (k, w) :: rest, key => if k == key then rest else (k, w) :: eraseA rest key

/-- `needle` occurs as a contiguous substring of `hay` (JS `String.includes`). -/
def containsSub (hay needle : List Char) : Bool :=
  match hay with
  | [] => needle.isEmpty
  | _ :: rest => needle.isPrefixOf hay || containsSub rest needle

/-- String-level wrapper for `containsSub`. -/
def sContains (hay needle : String) : Bool :=
  containsSub hay.toList needle.toList

/-- JS `String.startsWith`. -/
def sStarts (s pre : String) : Bool :=
  pre.toList.isPrefixOf s.toList

/-! ## A small matcher for the ECMAScript regexes appearing in the source.

A pattern is a sequence of items; each item is a single-character class, a
quantified single-character class, or an optional literal sequence (for the
`(?:React\.)?` group).  This covers every regex the source evaluates.  The
matcher returns the number of characters consumed by the first match in
ECMAScript backtracking order (greedy quantifiers try longest first, lazy
quantifiers shortest first), which is what determines `lastIndex` updates. -/

inductive RItem where
  /-- exactly one character satisfying the class -/
  | one (p : Char → Bool)
  /-- `*` quantifier on a character class; `lzy` selects the lazy variant `*?` -/
  | star (lzy : Bool) (p : Char → Bool)
  /-- greedy `+` quantifier on a character class -/
  | pls (p : Char → Bool)
  /-- optional literal character sequence, e.g. `(?:React\.)?` -/
  | optSeq (ps : List (Char → Bool))

/-- Length of the maximal run of characters satisfying `p`. -/
def runLen (p : Char → Bool) : List Char → Nat
  | [] => 0
  | c :: s => if p c then runLen p s + 1 else 0

/-- Match a literal character sequence, returning the remaining suffix. -/
def matchSeq : List (Char → Bool) → List Char → Option (List Char)
  | [], s => some s
  | _ :: _, [] => none
  | p :: ps, c :: s => if p c then matchSeq ps s else none

/-- First match of the item sequence anchored at the start of `s`, in
ECMAScript backtracking order; returns the number of characters consumed. -/
def matchItems : List RItem → List Char → Option Nat
  | [], _ => some 0
  | .one _ :: _, [] => none
  | .one p :: rest, c :: s => if p c then (matchItems rest s).map (· + 1) else none
  | .star lzy p :: rest, s =>
    let k := runLen p s
    let cands := if lzy then List.range (k + 1) else (List.range (k + 1)).reverse
    cands.findSome? fun i => (matchItems rest (s.drop i)).map (· + i)
  | .pls p :: rest, s =>
    let k := runLen p s
    ((List.range k).reverse.map (· + 1)).findSome? fun i =>
      (matchItems rest (s.drop i)).map (· + i)
  | .optSeq ps :: rest, s =>
    (match matchSeq ps s with
     | some s' => (matchItems rest s').map (· + (s.length - s'.length))
     | none => none) <|> matchItems rest s

/-- Leftmost match in `s`: returns `(start, length)` of the first match found
when scanning start positions left to right. -/
def searchFrom (items : List RItem) : List Char → Option (Nat × Nat)
  | [] => (matchItems items []).map (fun n => (0, n))
  | c :: s =>
    match matchItems items (c :: s) with
    | some n => some (0, n)
    | none => (searchFrom items s).map (fun pr => (pr.1 + 1, pr.2))

/-- Stateless `RegExp.prototype.test` (no `g` flag): does any match exist. -/
def rtest (items : List RItem) (s : List Char) : Bool :=
  (searchFrom items s).isSome

/-- `RegExp.prototype.test` of a `g`-flagged regex: the search starts at
`lastIndex`; on success `lastIndex` becomes the end of the match, on failure
it is reset to `0`.  Returns `(matched, new lastIndex)`. -/
def jsTestG (items : List RItem) (lastIndex : Nat) (s : List Char) : Bool × Nat :=
  if lastIndex > s.length then (false, 0)
  else
    match searchFrom items (s.drop lastIndex) with
    | some (st, n) => (true, lastIndex + st + n)
    | none => (false, 0)

/-! ## Character classes of the embedded regexes. -/

/-- `\w` : `[A-Za-z0-9_]`. -/
def isWordChar (c : Char) : Bool := c.isAlpha || c.isDigit || c == '_'

/-- `\s` (the JS whitespace class, restricted to its ASCII members plus NBSP;
the exotic Unicode spaces never occur in the inputs considered here). -/
def isJsWs (c : Char) : Bool :=
  c == ' ' || c == '\t' || c == '\n' || c == '\r' || c == '\x0b' || c == '\x0c' ||
  c == '\xa0'

/-- `.` without the `s` flag: any character except a line terminator. -/
def isDotChar (c : Char) : Bool := !(c == '\n' || c == '\r')

/-- `[\s\S]` : any character. -/
def anyChar (_ : Char) : Bool := true

/-- Case-insensitive single character (patterns compiled with the `i` flag). -/
def chCI (c : Char) : Char → Bool := fun x => x.toLower == c.toLower

/-- Case-sensitive single character. -/
def chEq (c : Char) : Char → Bool := fun x => x == c

/-- Case-insensitive literal string as an item sequence. -/
def litCI (s : String) : List RItem := s.toList.map (fun c => .one (chCI c))

/-- Case-sensitive literal string as an item sequence. -/
def litCS (s : String) : List RItem := s.toList.map (fun c => .one (chEq c))

/-- JS `String.trim`: strip leading and trailing whitespace (the JS whitespace
set, restricted as in `isJsWs`). -/
def jsTrim (s : String) : String :=
  String.mk (((s.toList.dropWhile isJsWs).reverse.dropWhile isJsWs).reverse)

/-- JS `String.split('\n')`: the lines of `s`, keeping empty segments. -/
def splitNlGo (acc : List Char) : List Char → List (List Char)
  | [] => [acc.reverse]
  | c :: rest =>
    if c == '\n' then acc.reverse :: splitNlGo [] rest
    else splitNlGo (c :: acc) rest

/-- JS `code.split('\n')` as strings. -/
def jsLines (s : String) : List String :=
  (splitNlGo [] s.toList).map String.mk

/-! ## `CodeValidator`: pattern tables. -/

/-- A source-level JS regex: its `.source` text (used in error messages) and
its embedding as an item sequence. -/
structure JsRegex where
  source : String
  items : List RItem

/-- `CodeValidator.forbiddenPatterns` — the 37 deny-list regexes, all compiled
with flags `gi` (global, case-insensitive), in source order. -/
def forbiddenPatterns : List JsRegex := [
  ⟨"eval\\s*\\(", litCI "eval" ++ [.star false isJsWs, .one (chEq '(')]⟩,
  ⟨"Function\\s*\\(", litCI "Function" ++ [.star false isJsWs, .one (chEq '(')]⟩,
  ⟨"document\\.write", litCI "document.write"⟩,
  ⟨"innerHTML\\s*=", litCI "innerHTML" ++ [.star false isJsWs, .one (chEq '=')]⟩,
  ⟨"outerHTML\\s*=", litCI "outerHTML" ++ [.star false isJsWs, .one (chEq '=')]⟩,
  ⟨"window\\.parent", litCI "window.parent"⟩,
  ⟨"window\\.top", litCI "window.top"⟩,
  ⟨"window\\.frames", litCI "window.frames"⟩,
  ⟨"parent\\.", litCI "parent."⟩,
  ⟨"top\\.", litCI "top."⟩,
  ⟨"\\.contentWindow", litCI ".contentWindow"⟩,
  ⟨"postMessage", litCI "postMessage"⟩,
  ⟨"fetch\\s*\\(", litCI "fetch" ++ [.star false isJsWs, .one (chEq '(')]⟩,
  ⟨"XMLHttpRequest", litCI "XMLHttpRequest"⟩,
  ⟨"localStorage", litCI "localStorage"⟩,
  ⟨"sessionStorage", litCI "sessionStorage"⟩,
  ⟨"document\\.cookie", litCI "document.cookie"⟩,
  ⟨"<script[\\s\\S]*?>", litCI "<script" ++ [.star true anyChar, .one (chEq '>')]⟩,
  ⟨"<iframe[\\s\\S]*?>", litCI "<iframe" ++ [.star true anyChar, .one (chEq '>')]⟩,
  ⟨"<object[\\s\\S]*?>", litCI "<object" ++ [.star true anyChar, .one (chEq '>')]⟩,
  ⟨"<embed[\\s\\S]*?>", litCI "<embed" ++ [.star true anyChar, .one (chEq '>')]⟩,
  ⟨"<link[\\s\\S]*?>", litCI "<link" ++ [.star true anyChar, .one (chEq '>')]⟩,
  ⟨"<meta[\\s\\S]*?>", litCI "<meta" ++ [.star true anyChar, .one (chEq '>')]⟩,
  ⟨"javascript:", litCI "javascript:"⟩,
  ⟨"data:text\\/html", litCI "data:text/html"⟩,
  ⟨"vbscript:", litCI "vbscript:"⟩,
  ⟨"on\\w+\\s*=", litCI "on" ++ [.pls isWordChar, .star false isJsWs, .one (chEq '=')]⟩,
  ⟨"setInterval", litCI "setInterval"⟩,
  ⟨"setTimeout.*eval", litCI "setTimeout" ++ [.star false isDotChar] ++ litCI "eval"⟩,
  ⟨"new\\s+Function", litCI "new" ++ [.pls isJsWs] ++ litCI "Function"⟩,
  ⟨"import\\s*\\(", litCI "import" ++ [.star false isJsWs, .one (chEq '(')]⟩,
  ⟨"require\\s*\\(", litCI "require" ++ [.star false isJsWs, .one (chEq '(')]⟩,
  ⟨"global\\.", litCI "global."⟩,
  ⟨"process\\.", litCI "process."⟩,
  ⟨"Buffer\\.", litCI "Buffer."⟩,
  ⟨"__dirname", litCI "__dirname"⟩,
  ⟨"__filename", litCI "__filename"⟩]

/-- `CodeValidator.requiredPatterns` — compiled without flags (case-sensitive,
stateless). -/
def requiredPatterns : List JsRegex := [
  ⟨"import\\s+React", litCS "import" ++ [.pls isJsWs] ++ litCS "React"⟩,
  ⟨"export\\s+default", litCS "export" ++ [.pls isJsWs] ++ litCS "default"⟩]

/-- `CodeValidator.allowedImports`. -/
def allowedImports : List String := ["react", "react-dom", "react/jsx-runtime",
  "react-error-boundary"]

/-- `CodeValidator.isImportAllowed`: exact allow-list match, or any
`react/` sub-path. -/
def isImportAllowed (p : String) : Bool :=
  allowedImports.contains p || sStarts p "react/"

/-! ## `CodeValidator`: step functions. -/

/-- The parenthesis scan of `validateBasicStructure`: walks the code updating a
counter, stopping (`break`) at the first negative value.  Returns
(went negative, counter value when the loop stopped). -/
def parenScan : List Char → Int → Bool × Int
  | [], acc => (false, acc)
  | c :: s, acc =>
    let acc' := if c == '(' then acc + 1 else if c == ')' then acc - 1 else acc
    if acc' < 0 then (true, acc') else parenScan s acc'

/-- Errors accumulated by `CodeValidator.validateBasicStructure`, in push order:
trimmed length `< 20`; length `> 50000`; each required pattern that fails to
match; unbalanced braces (count of `\x7b` vs `\x7d`); the parenthesis checks
(note that when the scan goes negative the "Unbalanced parentheses" message is
pushed twice: once inside the loop and once after it, since the counter is then
nonzero). -/
def basicStructureErrors (code : String) : List String :=
  let cs := code.toList
  (if (jsTrim code).length < 20 then ["Code is too short to be a valid component"] else []) ++
  (if code.length > 50000 then ["Code is too long (>50KB)"] else []) ++
  (requiredPatterns.filterMap fun rp =>
    if rtest rp.items cs then none
    else some ("Missing required pattern: " ++ rp.source)) ++
  (if (cs.countP (· == '\x7b')) != (cs.countP (· == '\x7d'))
    then ["Unbalanced braces in code"] else []) ++
  (let (neg, fin) := parenScan cs 0
   (if neg then ["Unbalanced parentheses in code"] else []) ++
   (if fin != 0 then ["Unbalanced parentheses in code"] else []))

/-- `CodeValidator.checkForbiddenPatterns`: tests each `g`-flagged pattern via
`RegExp.prototype.test`, so each pattern's persistent `lastIndex` is read and
updated.  The pattern state is the list of `lastIndex` values, one per pattern
(missing entries default to 0).  Returns (errors pushed, new pattern state). -/
def checkForbiddenGo : List JsRegex → List Nat → List Char → List String × List Nat
  | [], _, _ => ([], [])
  | p :: ps, st, s =>
    let (hit, li') := jsTestG p.items (st.headD 0) s
    let (errs, sts) := checkForbiddenGo ps (st.tailD []) s
    ((if hit then ["Forbidden pattern detected: " ++ p.source] else []) ++ errs,
     li' :: sts)

/-- The pattern state of a freshly constructed `CodeValidator` (every
`lastIndex` is 0). -/
def initPatternState : List Nat := List.replicate forbiddenPatterns.length 0

/-- The import regex of `validateImports`
(`/import\s+.*?\s+from\s+['"]([^'"]+)['"];?/g`) and of
`extractDependencies` (same without the trailing `;?`). -/
def importItems (semi : Bool) : List RItem :=
  litCS "import" ++ [.pls isJsWs, .star true isDotChar, .pls isJsWs] ++
  litCS "from" ++
  [.pls isJsWs, .one (fun c => c == '\x27' || c == '"'),
   .pls (fun c => !(c == '\x27' || c == '"')),
   .one (fun c => c == '\x27' || c == '"')] ++
  (if semi then [.optSeq [fun c => c == ';']] else [])

/-- Recover the capture group `([^'"]+)` from the text of a full match of
the import regex: strip the optional trailing `;`, strip the closing quote,
then take the quote-free run backwards. -/
def importCapture (m : List Char) : String :=
  let r := m.reverse
  let r := match r with
    | ';' :: r' => r'
    | _ => r
  let r := match r with
    | _ :: r' => r'  -- the closing quote
    | [] => []
  String.mk ((r.takeWhile (fun c => !(c == '\x27' || c == '"'))).reverse)

/-- The `exec` loop over the `g`-flagged import regex: successive
non-overlapping leftmost matches, each contributing its captured module path.
The fuel argument (initially `length + 1`) only bounds the recursion; every
match consumes at least one character since the pattern contains the literal
`import`. -/
def importScanGo (semi : Bool) : Nat → List Char → List String
  | 0, _ => []
  | Nat.succ fuel, s =>
    match searchFrom (importItems semi) s with
    | none => []
    | some (st, n) =>
      importCapture ((s.drop st).take n) :: importScanGo semi fuel (s.drop (st + n))

/-- All captured import paths of `code`, in match order. -/
def importPaths (semi : Bool) (code : String) : List String :=
  importScanGo semi (code.toList.length + 1) code.toList

/-- `CodeValidator.validateImports`: (errors, warnings).  Each disallowed path
yields an "Unauthorized import" error; each relative path yields a warning. -/
def importEW (code : String) : List String × List String :=
  let paths := importPaths true code
  (paths.filterMap fun p =>
     if isImportAllowed p then none else some ("Unauthorized import: " ++ p),
   paths.filterMap fun p =>
     if sStarts p "./" || sStarts p "../" then
       some ("Relative import detected: " ++ p)
     else none)

/-- `/(?:function\s+\w+|const\s+\w+\s*=\s*\([^)]*\)\s*=>)/`, first alternative. -/
def funcComp1 : List RItem := litCS "function" ++ [.pls isJsWs, .pls isWordChar]

/-- `/(?:function\s+\w+|const\s+\w+\s*=\s*\([^)]*\)\s*=>)/`, second alternative. -/
def funcComp2 : List RItem :=
  litCS "const" ++
  [.pls isJsWs, .pls isWordChar, .star false isJsWs, .one (chEq '='),
   .star false isJsWs, .one (chEq '('), .star false (fun c => !(c == ')')),
   .one (chEq ')'), .star false isJsWs] ++ litCS "=>"

/-- `/class\s+\w+\s+extends\s+(?:React\.)?Component/`. -/
def classComp : List RItem :=
  litCS "class" ++ [.pls isJsWs, .pls isWordChar, .pls isJsWs] ++
  litCS "extends" ++
  [.pls isJsWs, .optSeq (("React.").toList.map chEq)] ++ litCS "Component"

/-- Consume a literal (case-sensitive); helper for the capture-group matchers. -/
def eatCS (lit : List Char) (s : List Char) : Option (List Char) :=
  matchSeq (lit.map chEq) s

/-- Split off the maximal run of characters satisfying `p`. -/
def splitRun (p : Char → Bool) : List Char → List Char × List Char
  | [] => ([], [])
  | c :: s =>
    if p c then
      let (r, rest) := splitRun p s
      (c :: r, rest)
    else ([], c :: s)

/-- Alternative `function\s+(\w+)` of the component-name regex of
`validateComponentStructure`, anchored at the start of `s`. -/
def cnameAlt1 (s : List Char) : Option String := do
  let s ← eatCS "function".toList s
  let (w, s) := splitRun isJsWs s
  if w.isEmpty then none
  else
    let (n, _) := splitRun isWordChar s
    if n.isEmpty then none else some (String.mk n)

/-- Alternative `const\s+(\w+)\s*=`, anchored. -/
def cnameAlt2 (s : List Char) : Option String := do
  let s ← eatCS "const".toList s
  let (w, s) := splitRun isJsWs s
  if w.isEmpty then none
  else
    let (n, s) := splitRun isWordChar s
    if n.isEmpty then none
    else
      let (_, s) := splitRun isJsWs s
      match s with
      | '=' :: _ => some (String.mk n)
      | _ => none

/-- Alternative `export\s+default\s+(\w+)`, anchored. -/
def cnameAlt3 (s : List Char) : Option String := do
  let s ← eatCS "export".toList s
  let (w1, s) := splitRun isJsWs s
  if w1.isEmpty then none
  else
    let s ← eatCS "default".toList s
    let (w2, s) := splitRun isJsWs s
    if w2.isEmpty then none
    else
      let (n, _) := splitRun isWordChar s
      if n.isEmpty then none else some (String.mk n)

/-- Leftmost match of
`/(?:function\s+(\w+)|const\s+(\w+)\s*=|export\s+default\s+(\w+))/`; the
returned string is `match[1] || match[2] || match[3]`. -/
def cnameSearch : List Char → Option String
  | [] => none
  | s@(_ :: rest) =>
    (cnameAlt1 s <|> cnameAlt2 s <|> cnameAlt3 s) <|> cnameSearch rest

/-- `/^[A-Z][a-zA-Z0-9]*$/` applied to a component name. -/
def isPascalCase (name : String) : Bool :=
  match name.toList with
  | [] => false
  | c :: rest => c.isUpper && rest.all (fun x => x.isAlpha || x.isDigit)

/-- `CodeValidator.validateComponentStructure`: (errors, warnings) in push
order. -/
def componentStructureEW (code : String) : List String × List String :=
  let cs := code.toList
  let hasFunctionComponent := rtest funcComp1 cs || rtest funcComp2 cs
  let hasClassComponent := rtest classComp cs
  ((if !hasFunctionComponent && !hasClassComponent then
      ["No valid React component definition found"] else []) ++
   (if !(sContains code "return") || !(sContains code "<") then
      ["Component must return JSX"] else []),
   (if hasClassComponent then
      ["Class components detected - function components are preferred"] else []) ++
   (match cnameSearch cs with
    | some name =>
      if !isPascalCase name then
        ["Component name should be PascalCase: " ++ name]
      else []
    | none => []))

/-- `/use[A-Z]\w*/`. -/
def useHook : List RItem :=
  litCS "use" ++ [.one Char.isUpper, .star false isWordChar]

/-- `/(?:function|const\s+\w+\s*=)/`, tested per line in the hook loop. -/
def funcLine (l : List Char) : Bool :=
  rtest (litCS "function") l ||
  rtest (litCS "const" ++
    [.pls isJsWs, .pls isWordChar, .star false isJsWs, .one (chEq '=')]) l

/-- The per-line loop of `validateReactPatterns`: tracks `inFunction` and a
running brace count; the first line seen inside a function at brace depth `> 1`
that mentions a hook call produces the warning and breaks. -/
def hookLoop : List String → Bool → Int → List String
  | [], _, _ => []
  | line :: rest, inF, bc =>
    let l := line.toList
    let inF' := if funcLine l then true else inF
    let bc' := bc + (l.countP (· == '\x7b') : Int) - (l.countP (· == '\x7d') : Int)
    if inF' && bc' > 1 && rtest useHook l then
      ["Hooks should be called at the top level of components"]
    else hookLoop rest inF' bc'

/-- `CodeValidator.validateReactPatterns` (warnings only). -/
def reactPatternWarnings (code : String) : List String :=
  let cs := code.toList
  (if rtest useHook cs then hookLoop (jsLines code) false 0 else []) ++
  (if rtest (litCS "style" ++
       [.star false isJsWs, .one (chEq '='), .star false isJsWs,
        .one (chEq '\x7b'), .one (chEq '\x7b')]) cs then
     ["Inline styles detected - prefer Tailwind CSS classes"] else []) ++
  (if rtest ([.one (chEq '.')] ++ litCS "map" ++
       [.star false isJsWs, .one (chEq '(')]) cs &&
      !(rtest ([.one (chEq '<'), .pls isWordChar,
        .star false (fun c => !(c == '>'))] ++ litCS "key=") cs) then
     ["Missing key props in mapped elements"] else [])

/-- The string form of the exception thrown by
`new RegExp("\\b?\\b", "g")` in `validateSizeAndComplexity` (a quantifier on
the assertion `\b` is invalid in ECMAScript).  The wording is V8's; the
structural facts proved below (every call rejects with exactly this one
"Validation error" entry) depend only on the constructor throwing, which every
conforming engine does. -/
def complexityRegexError : String :=
  "SyntaxError: Invalid regular expression: /\\b?\\b/: Nothing to repeat"

/-- `CodeValidator.validateSizeAndComplexity`, up to the point where it throws:
the line-count warning is pushed first; the keyword loop then runs
`new RegExp("\\b" + keyword + "\\b", "g")` for
`['if','else','while','for','switch','case','&&','||','?']`.  The iterations
before `'?'` only add to a local `complexity` counter that is never observed
(the warning that reads it sits after the loop), and the `'?'` iteration throws
while constructing `\b?\b`.  Returns the warnings pushed before the throw. -/
def sizeWarnings (code : String) : List String :=
  if (jsLines code).length > 200 then
    ["Component is quite large - consider breaking it into smaller components"]
  else []

/-! ## `CodeValidator.validateJSX`. -/

/-- `SecurityValidationResult` (from the repository's `types` module, which is
not part of the snapshot; the field shapes are taken from their uses in
`validateJSX` and its callers). -/
structure SecurityValidationResult where
  isValid : Bool
  errors : List String
  warnings : List String
  sanitizedCode : Option String
deriving DecidableEq, Repr

/-- `CodeValidator.validateJSX`.  Steps 1-6 run unconditionally inside the
`try`; step 6 (`validateSizeAndComplexity`) always throws a `SyntaxError`
(see `complexityRegexError`), so the `catch` branch always returns:
`isValid` is `false`, the returned error list is the single
`"Validation error: ..."` entry (the errors accumulated by steps 1-4 are
discarded), the warnings accumulated before the throw are returned, and the
post-step-6 code (the `errors.length` check and `sanitizeCode`) is
unreachable.  The second component is the validator's persistent pattern state
(the `lastIndex` of each `g`-flagged forbidden pattern), which step 2
updates. -/
def validateJSX (patternState : List Nat) (code : String) :
    SecurityValidationResult × List Nat :=
  let cs := code.toList
  let e1 := basicStructureErrors code
  let (e2, patternState') := checkForbiddenGo forbiddenPatterns patternState cs
  let (e3, w3) := importEW code
  let (e4, w4) := componentStructureEW code
  let w5 := reactPatternWarnings code
  let w6 := sizeWarnings code
  -- the error accumulator at the moment step 6 throws; the catch discards it
  let _discardedErrors := e1 ++ e2 ++ e3 ++ e4
  ({ isValid := false
     errors := ["Validation error: " ++ complexityRegexError]
     warnings := w3 ++ w4 ++ w5 ++ w6
     sanitizedCode := none },
   patternState')

/-! ## `CodeValidator.sanitizeCode` (reachable only from a successful
validation, which never occurs; embedded standalone, as in the source). -/

/-- Match of `/export\s+default\s+(\w+);?$/m` anchored at the start of `s`:
`export`, whitespace, `default`, whitespace, the captured identifier (maximal
`\w+` run), an optional `;`, then the multiline `$` (end of input or before a
line terminator).  Returns (captured name, match length). -/
def exportAt (s : List Char) : Option (String × Nat) := do
  let s1 ← eatCS "export".toList s
  let (w1, s2) := splitRun isJsWs s1
  if w1.isEmpty then none
  else
    let s3 ← eatCS "default".toList s2
    let (w2, s4) := splitRun isJsWs s3
    if w2.isEmpty then none
    else
      let (n, s5) := splitRun isWordChar s4
      if n.isEmpty then none
      else
        let base := 6 + w1.length + 7 + w2.length + n.length
        match s5 with
        | ';' :: s6 =>
          if s6.isEmpty || s6.headD ' ' == '\n' || s6.headD ' ' == '\r' then
            some (String.mk n, base + 1)
          else none
        | s6 =>
          if s6.isEmpty || s6.headD ' ' == '\n' || s6.headD ' ' == '\r' then
            some (String.mk n, base)
          else none

/-- Leftmost match of the export-default regex: (start index, name, length). -/
def findExport : List Char → Option (Nat × String × Nat)
  | [] => none
  | s@(_ :: rest) =>
    match exportAt s with
    | some (n, len) => some (0, n, len)
    | none => (findExport rest).map (fun pr => (pr.1 + 1, pr.2.1, pr.2.2))

/-- The replacement text `wrapWithErrorBoundary` substitutes for the matched
`export default <name>;` statement. -/
def wrapperText (name : String) : String :=
  "const Original" ++ name ++ " = " ++ name ++ ";\n\n" ++
  "const SafeComponent = (props) => (\n  <ErrorBoundary\n    fallback=\x7b\n" ++
  "      <div className=\"p-4 bg-red-50 border border-red-200 text-red-700 rounded-lg\">\n" ++
  "        <h3 className=\"font-medium mb-2\">Component Error</h3>\n" ++
  "        <p className=\"text-sm\">This component failed to render safely.</p>\n" ++
  "      </div>\n    \x7d\n" ++
  "    onError=\x7b(error) => console.error(\x27Panel component error:\x27, error)\x7d\n" ++
  "  >\n    <Original" ++ name ++ " \x7b...props\x7d />\n  </ErrorBoundary>\n);\n\n" ++
  "export default SafeComponent;"

/-- `CodeValidator.wrapWithErrorBoundary`: if the export-default regex does not
match, the code is returned unchanged; otherwise the first match is replaced by
`wrapperText` (the definition preceding the export statement is untouched). -/
def wrapWithErrorBoundary (code : String) : String :=
  match findExport code.toList with
  | none => code
  | some (st, name, len) =>
    String.mk (code.toList.take st) ++ wrapperText name ++
    String.mk (code.toList.drop (st + len))

/-- `CodeValidator.sanitizeCode`: wrap, then prepend the safety imports when
the `ErrorBoundary` import is missing. -/
def sanitizeCode (code : String) : String :=
  let sanitized := wrapWithErrorBoundary code
  if !(sContains sanitized "import \x7b ErrorBoundary \x7d") then
    "import React from \x27react\x27;\n" ++
    "import \x7b ErrorBoundary \x7d from \x27react-error-boundary\x27;\n\n" ++ sanitized
  else sanitized

/-! ## `RuntimeJSXCompiler`.

The compiler depends on two host-runtime capabilities that are external
services from the point of view of this file: Babel's `transform` (the
external transpile service) and dynamic `import()` of a blob URL (module
loading).  Both are modelled as oracles in `CompileEnv`.  Loaded React
components are opaque; they are modelled as `Nat` tags.  Blob URLs are a
scarce, revocable resource: creation is modelled by a counter (each
`createModuleBlob` call yields the fresh URL `"blob:" ++ i`) and revocation
(`URL.revokeObjectURL`) by a list of released URLs. -/

/-- The state of the blob-URL resource: how many URLs have been created and
which have been revoked. -/
structure CompilerSt where
  urlCounter : Nat
  released : List String
deriving DecidableEq, Repr

/-- External capabilities: `transform` is Babel (returning the transpiled code
or throwing with a message); `load` resolves a module URL to its
default-exported component, or fails with the string form of the load error
(covering a missing or non-function default export as well as import
failures). -/
structure CompileEnv where
  transform : String → Except String String
  load : String → Except String Nat

/-- `CompilationResult` (field shapes from the repository's `types` module as
used by the compiler and its callers; `error` holds the `Error`'s message). -/
structure CompilationResult where
  success : Bool
  code : Option String := none
  moduleUrl : Option String := none
  error : Option String := none
  warnings : List String := []
deriving DecidableEq, Repr

/-- `RuntimeJSXCompiler.compileComponent`: rejects blank input before
transpiling (`!jsxCode.trim()`); transpile failures and an empty output are
caught and returned as structured failures; on success one fresh module URL is
created for the wrapped module.  Never throws past its boundary. -/
def compileComponent (env : CompileEnv) (cst : CompilerSt) (jsxCode : String) :
    CompilationResult × CompilerSt :=
  if jsTrim jsxCode == "" then
    ({ success := false, error := some "JSX code cannot be empty" }, cst)
  else
    match env.transform jsxCode with
    | .error msg => ({ success := false, error := some msg }, cst)
    | .ok out =>
      if out == "" then
        ({ success := false, error := some "Compilation failed: no code generated" }, cst)
      else
        ({ success := true, code := some out,
           moduleUrl := some ("blob:" ++ Nat.repr cst.urlCounter), warnings := [] },
         { cst with urlCounter := cst.urlCounter + 1 })

/-- `RuntimeJSXCompiler.cleanupModuleUrl`: revoke a blob URL; URLs of another
scheme are ignored. -/
def cleanupModuleUrl (cst : CompilerSt) (url : String) : CompilerSt :=
  if sStarts url "blob:" then { cst with released := cst.released ++ [url] }
  else cst

/-- First capture of `/(?:function|const|let|var)\s+([A-Z][a-zA-Z0-9]*)/`-style
patterns: keyword, whitespace, then a capitalized identifier; `eq` additionally
requires `\s*=` after the identifier (the second regex of
`extractComponentName`). -/
def kwName (kw : String) (eq : Bool) (s : List Char) : Option String := do
  let s1 ← eatCS kw.toList s
  let (w, s2) := splitRun isJsWs s1
  if w.isEmpty then none
  else
    match s2 with
    | c :: s3 =>
      if c.isUpper then
        let (r, s4) := splitRun (fun x => x.isAlpha || x.isDigit) s3
        if eq then
          let (_, s5) := splitRun isJsWs s4
          match s5 with
          | '=' :: _ => some (String.mk (c :: r))
          | _ => none
        else some (String.mk (c :: r))
      else none
    | [] => none

/-- Leftmost match of an alternation of `kwName` matchers. -/
def kwSearch (kws : List String) (eq : Bool) : List Char → Option String
  | [] => none
  | s@(_ :: rest) =>
    (kws.findSome? fun kw => kwName kw eq s) <|> kwSearch kws eq rest

/-- Capture of `/export\s+default\s+([A-Z][a-zA-Z0-9]*)/`, anchored. -/
def exportNameAt (s : List Char) : Option String := do
  let s1 ← eatCS "export".toList s
  let (w1, s2) := splitRun isJsWs s1
  if w1.isEmpty then none
  else
    let s3 ← eatCS "default".toList s2
    let (w2, s4) := splitRun isJsWs s3
    if w2.isEmpty then none
    else
      match s4 with
      | c :: s5 =>
        if c.isUpper then
          let (r, _) := splitRun (fun x => x.isAlpha || x.isDigit) s5
          some (String.mk (c :: r))
        else none
      | [] => none

/-- Leftmost match of the export-default name regex. -/
def exportNameSearch : List Char → Option String
  | [] => none
  | s@(_ :: rest) => exportNameAt s <|> exportNameSearch rest

/-- `RuntimeJSXCompiler.extractComponentName`: three regexes tried in order,
falling back to `"Component"`. -/
def extractComponentName (jsxCode : String) : String :=
  let cs := jsxCode.toList
  ((kwSearch ["function", "const", "let", "var"] false cs) <|>
   (kwSearch ["const", "let", "var"] true cs) <|>
   exportNameSearch cs).getD "Component"

/-- `RuntimeJSXCompiler.extractDependencies`: every captured import source, in
order, duplicates preserved (the regex here has no trailing `;?`). -/
def extractDependencies (jsxCode : String) : List String :=
  importPaths false jsxCode

/-! ## `EnhancedPanelRegistry`.

`panels` and `componentCache` are JS `Map`s (insertion-ordered); `events`
records the `panel-hmr-update` events dispatched by `emitHMRUpdate`.
Timestamps (`new Date()` / `Date.now()`) are passed in by the caller as `now`.
The metadata field shapes come from the uses in `registerPanelFromJSX` and
`updatePanel` (the `types` module is not in the snapshot); only the fields
those methods read or write are modelled. -/

structure PanelMetadata where
  createdAt : Nat
  updatedAt : Nat
  creator : String
  dependencies : List String
deriving DecidableEq, Repr

/-- A `Partial<PanelDefinition['metadata']>` argument: present fields override
the defaults via object spread. -/
structure MetaOverride where
  createdAt : Option Nat := none
  updatedAt : Option Nat := none
  creator : Option String := none
  dependencies : Option (List String) := none
deriving DecidableEq, Repr

/-- `{ createdAt, updatedAt, creator: 'ai', dependencies, ...metadata }`. -/
def mergeMeta (base : PanelMetadata) (ov : MetaOverride) : PanelMetadata :=
  { createdAt := ov.createdAt.getD base.createdAt
    updatedAt := ov.updatedAt.getD base.updatedAt
    creator := ov.creator.getD base.creator
    dependencies := ov.dependencies.getD base.dependencies }

structure PanelDefinition where
  id : String
  name : String
  jsxCode : String
  compiledCode : Option String
  component : Nat
  metadata : PanelMetadata
deriving DecidableEq, Repr

/-- `ComponentCacheEntry` (shared by registry and HMR manager). -/
structure ComponentCacheEntry where
  component : Nat
  moduleUrl : String
  lastUpdated : Nat
  compiledCode : String
deriving DecidableEq, Repr

structure RegistrySt where
  panels : List (String × PanelDefinition)
  componentCache : List (String × ComponentCacheEntry)
  comp : CompilerSt
  /-- `panel-hmr-update` events dispatched by `emitHMRUpdate`, by panel id. -/
  events : List String
deriving Repr

/-- A freshly constructed registry. -/
def initRegistry : RegistrySt :=
  { panels := [], componentCache := [], comp := ⟨0, []⟩, events := [] }

/-- `EnhancedPanelRegistry.registerPanelFromJSX`.  Compiles, loads, then
builds/overwrites the panel definition and the cache entry under `id`.  A
compile failure throws `Compilation failed: <message>` and a load failure
throws `Component loading failed: <error>`, in both cases before either map is
touched (the `catch` in the source only logs and rethrows).  Note that a
pre-existing entry's module URL is NOT released here. -/
def registerPanelFromJSX (env : CompileEnv) (now : Nat) (st : RegistrySt)
    (id jsxCode : String) (ov : MetaOverride) :
    Except String Nat × RegistrySt :=
  let cres := compileComponent env st.comp jsxCode
  if cres.1.success = false ∨ cres.1.moduleUrl.isNone then
    (.error ("Compilation failed: " ++ cres.1.error.getD "undefined"),
     { st with comp := cres.2 })
  else
    -- the guard makes the url present; JS uses compilationResult.moduleUrl directly
    let url := cres.1.moduleUrl.getD ""
    match env.load url with
    | .error e =>
      (.error ("Component loading failed: " ++ e), { st with comp := cres.2 })
    | .ok component =>
      let pd : PanelDefinition :=
        { id := id
          name := extractComponentName jsxCode
          jsxCode := jsxCode
          compiledCode := cres.1.code
          component := component
          metadata := mergeMeta
            { createdAt := now, updatedAt := now, creator := "ai"
              dependencies := extractDependencies jsxCode } ov }
      (.ok component,
       { st with
           comp := cres.2
           panels := setA st.panels id pd
           componentCache := setA st.componentCache id
             ⟨component, url, now, cres.1.code.getD ""⟩ })

/-- `EnhancedPanelRegistry.updatePanel`: requires an existing entry (else
throws `Panel <id> not found`); releases the existing cache entry's module URL
BEFORE re-registering; on success re-registers under the same id with
`updatedAt` refreshed and emits a `panel-hmr-update` event; a registration
failure propagates (after the old URL was already released). -/
def updatePanel (env : CompileEnv) (now : Nat) (st : RegistrySt)
    (id jsxCode : String) : Except String Nat × RegistrySt :=
  match lookupA st.panels id with
  | none => (.error ("Panel " ++ id ++ " not found"), st)
  | some existing =>
    let st1 :=
      match lookupA st.componentCache id with
      | some oldCache => { st with comp := cleanupModuleUrl st.comp oldCache.moduleUrl }
      | none => st
    match registerPanelFromJSX env now st1 id jsxCode
      ⟨some existing.metadata.createdAt, some now,
       some existing.metadata.creator, some existing.metadata.dependencies⟩ with
    | (.error e, st2) => (.error e, st2)
    | (.ok c, st2) => (.ok c, { st2 with events := st2.events ++ [id] })

/-- `EnhancedPanelRegistry.removePanel`: releases the cached module URL and
deletes both map entries; a no-op on the maps for an unknown id. -/
def removePanel (st : RegistrySt) (id : String) : RegistrySt :=
  let st1 :=
    match lookupA st.componentCache id with
    | some cache => { st with comp := cleanupModuleUrl st.comp cache.moduleUrl }
    | none => st
  { st1 with
      panels := eraseA st1.panels id
      componentCache := eraseA st1.componentCache id }

/-- `EnhancedPanelRegistry.getPanel`. -/
def getPanel (st : RegistrySt) (id : String) : Option PanelDefinition :=
  lookupA st.panels id

/-- `EnhancedPanelRegistry.getComponent`. -/
def getComponent (st : RegistrySt) (id : String) : Option Nat :=
  (lookupA st.componentCache id).map (·.component)

/-- `EnhancedPanelRegistry.getStats`. -/
def getStats (st : RegistrySt) : Nat × Nat × Nat :=
  (st.panels.length, st.componentCache.length,
   (st.componentCache.map (fun kv => kv.2.compiledCode.length * 2)).foldl (· + ·) 0)

/-! ## `DynamicHMRManager`. -/

/-- Lifecycle events dispatched on `window` by the HMR manager:
`panel-hmr-update` carries `\x7b panelId \x7d`; `panel-hmr-error` carries
`\x7b panelId, error \x7d`. -/
inductive HMREvent where
  | update (panelId : String)
  | failure (panelId error : String)
deriving DecidableEq, Repr

structure HMRSt where
  componentCache : List (String × ComponentCacheEntry)
  /-- `updateQueue`, a JS `Set` (duplicate-free, ids added only when absent). -/
  updateQueue : List String
  comp : CompilerSt
  events : List HMREvent
deriving Repr

/-- A freshly constructed HMR manager. -/
def initHMR : HMRSt := { componentCache := [], updateQueue := [], comp := ⟨0, []⟩, events := [] }

/-- `DynamicHMRManager.updateComponent`.  The whole body is a
`try/catch/finally`; the `finally` always removes `panelId` from
`updateQueue` — including when the body exits through the early
"already queued" return, which therefore deletes the in-flight marker set by
the call that is actually in flight.  A compile failure or load failure is
caught and handed to `handleUpdateFailure`, which dispatches exactly one
`panel-hmr-error` event carrying the panel id and the error message; the cache
is only written on full success, followed by one `panel-hmr-update` event.
The function never rethrows to its caller. -/
def updateComponent (env : CompileEnv) (now : Nat) (st : HMRSt)
    (panelId jsxCode : String) : HMRSt :=
  if st.updateQueue.contains panelId then
    -- early return; the finally still runs: updateQueue.delete(panelId)
    { st with updateQueue := st.updateQueue.erase panelId }
  else
    let q := st.updateQueue ++ [panelId]
    let cres := compileComponent env st.comp jsxCode
    if cres.1.success = false ∨ cres.1.moduleUrl.isNone then
      { st with
          comp := cres.2
          events := st.events ++
            [.failure panelId ("Compilation failed: " ++ cres.1.error.getD "undefined")]
          updateQueue := q.erase panelId }
    else
      -- the guard makes the url present; JS uses compilationResult.moduleUrl directly
      let url := cres.1.moduleUrl.getD ""
      let comp2 :=
        match lookupA st.componentCache panelId with
        | some oldCache => cleanupModuleUrl cres.2 oldCache.moduleUrl
        | none => cres.2
      match env.load url with
      | .error e =>
        { st with
            comp := comp2
            events := st.events ++
              [.failure panelId ("Component loading failed: " ++ e)]
            updateQueue := q.erase panelId }
      | .ok component =>
        { st with
            comp := comp2
            componentCache := setA st.componentCache panelId
              ⟨component, url, now, cres.1.code.getD ""⟩
            events := st.events ++ [.update panelId]
            updateQueue := q.erase panelId }

/-- `DynamicHMRManager.getComponent`. -/
def hmrGetComponent (st : HMRSt) (panelId : String) : Option ComponentCacheEntry :=
  lookupA st.componentCache panelId

/-! ## `AIComponentGenerator`: panel-identity derivation. -/

/-- JavaScript `ToInt32`: wrap an exact integer to a signed 32-bit value. -/
def toInt32 (x : Int) : Int :=
  let m := x % 4294967296
  if m < 2147483648 then m else m - 4294967296

/-- One step of `simpleHash`: `hash = ((hash << 5) - hash) + charCode` (the
shift wraps to 32 bits, the subtraction and addition are exact) followed by
`hash = hash & hash` (a 32-bit wrap).  Character codes are UTF-16 units; for
the BMP strings considered here `Char.toNat` coincides. -/
def hashStep (h : Int) (c : Char) : Int :=
  toInt32 (toInt32 (h * 32) - h + c.toNat)

/-- Lowercase base-16 rendering, as `Math.abs(hash).toString(16)`. -/
def toHex (n : Nat) : String := String.mk (Nat.toDigits 16 n)

/-- `AIComponentGenerator.simpleHash`. -/
def simpleHash (s : String) : String :=
  toHex (s.toList.foldl hashStep 0).natAbs

/-- `AIComponentGenerator.generatePanelId`:
`ai-panel-<simpleHash prompt>-<Date.now()>`. -/
def generatePanelId (prompt : String) (timestamp : Nat) : String :=
  "ai-panel-" ++ simpleHash prompt ++ "-" ++ Nat.repr timestamp

/-! ## Concrete scenarios used by the theorems below. -/

/-- A compile/load environment in which the transpile service echoes its input
and every module loads (component tag 0). -/
def okEnv : CompileEnv := ⟨fun s => .ok s, fun _ => .ok 0⟩

/-- An environment in which the transpile service fails with message `boom`. -/
def failEnv : CompileEnv := ⟨fun _ => .error "boom", fun _ => .ok 0⟩

/-- A source containing `eval("1+1")` (the deny-list's eval pattern matches). -/
def evalSrc : String := "eval(\"1+1\")"

/-- The spec's example input, read charitably as carrying the
rendering-framework import it mentions: the quoted body
`const X = () => <div>Hi</div>; export default X;` preceded by
`import React from 'react';`. -/
def c6input : String :=
  "import React from \x27react\x27;\nconst X = () => <div>Hi</div>;\nexport default X;"

/-- A well-formed component source (as `c6input` but with a block body, so it
contains the literal `return` that `validateComponentStructure` requires). -/
def c8input : String :=
  "import React from \x27react\x27;\nconst X = () => \x7b return <div>Hi</div>; \x7d;\nexport default X;"

/-! ## Claim C1. -/

/-- Claim C1 (status: code_bug).  For `evalSrc`, which matches the deny-list
entry `/eval\s*\(/gi`: `checkForbiddenPatterns` does record the
`Forbidden pattern detected: eval\s*\(` error (first conjunct — the claim is
right about the pattern matching), and `validateJSX` does reject (second
conjunct); but the returned error list is the single `Validation error: ...`
entry produced by the always-thrown `SyntaxError` of the complexity check, and
no entry of it references the eval pattern (last conjuncts) — the accumulated
forbidden-pattern errors are discarded by the `catch`. -/
theorem C1_eval_rejected_but_pattern_error_discarded :
    ("Forbidden pattern detected: eval\\s*\\(" ∈
      (checkForbiddenGo forbiddenPatterns initPatternState evalSrc.toList).1)
    ∧ (validateJSX initPatternState evalSrc).1.isValid = false
    ∧ (validateJSX initPatternState evalSrc).1.errors =
        ["Validation error: " ++ complexityRegexError]
    ∧ (validateJSX initPatternState evalSrc).1.errors.all
        (fun e => !(sContains e "eval")) = true := by
  refine ⟨?_, ?_, ?_, ?_⟩ <;> decide

/-! ## Claim C2. -/

/-- Claim C2 (status: confirmed).  Calling `validateJSX` twice in succession on
the same string, threading the validator instance's persistent pattern state
(the `lastIndex` of each `g`-flagged forbidden pattern) from the first call
into the second, yields identical results — identical accept/reject outcome
and identical error and warning lists.  The hidden `lastIndex` state does
mutate across calls, but it only affects the error accumulator that the
always-taken `catch` branch of `validateJSX` discards, so the observable
result is a function of the input alone. -/
theorem C2_validateJSX_twice_same_result (st : List Nat) (code : String) :
    (validateJSX (validateJSX st code).2 code).1 = (validateJSX st code).1 := rfl

/-! ## Claim C6. -/

/-- Claim C6, counterexample.  The spec's example input (with the
rendering-framework import) is NOT accepted with an empty error list:
`validateJSX` rejects it with a non-empty error list. -/
theorem C6_counterexample :
    (validateJSX initPatternState c6input).1.isValid = false
    ∧ (validateJSX initPatternState c6input).1.errors.isEmpty = false := by
  constructor <;> decide

/-- Claim C6 as amended (status: corrected).  The example input is rejected:
every `validateJSX` call returns `isValid = false` with the single
`Validation error: ...` entry (the complexity check's `\b?\b` regex throws)
and no `sanitizedCode`; moreover the source independently fails
`validateComponentStructure`, which pushes `Component must return JSX`
because the arrow body contains no literal `return`. -/
theorem C6_amended_example_input_rejected :
    (validateJSX initPatternState c6input).1 =
      { isValid := false
        errors := ["Validation error: " ++ complexityRegexError]
        warnings := []
        sanitizedCode := none }
    ∧ "Component must return JSX" ∈ (componentStructureEW c6input).1 := by
  constructor
  · decide
  · decide

/-! ## Claim C7. -/

/-- Claim C7 (status: confirmed).  For every environment, compiler state,
and blank (empty or whitespace-only, i.e. trimming to empty) source,
`compileComponent` returns the structured failure
`success = false, error = "JSX code cannot be empty"` — it does not throw past
its boundary — and the compiler state is returned unchanged: no module URL
(loadable reference) is created (`urlCounter` does not advance). -/
theorem C7_blank_source_structured_failure_no_url (env : CompileEnv)
    (cst : CompilerSt) (jsxCode : String) (h : jsTrim jsxCode = "") :
    compileComponent env cst jsxCode =
      ({ success := false, error := some "JSX code cannot be empty" }, cst) := by
  simp [compileComponent, h]

/-- Witness for C7 at the whitespace-only input `" "`. -/
theorem C7_blank_source_structured_failure_no_url_witness :
    jsTrim " " = "" ∧
    compileComponent okEnv ⟨0, []⟩ " " =
      ({ success := false, error := some "JSX code cannot be empty" }, ⟨0, []⟩) :=
  ⟨by decide, C7_blank_source_structured_failure_no_url okEnv ⟨0, []⟩ " " (by decide)⟩

/-! ## Claim C8. -/

/-- Claim C8 (status: code_bug).  The claim's guard is unsatisfiable on the
code: `validateJSX` never accepts (the complexity check always throws), so no
accepted source ever receives a `sanitizedCode` — shown here on a well-formed
component source.  The sanitization transform itself, had it been reached,
does preserve the exported component's identifier: `sanitizeCode` on the same
source still contains the identifier `X` and its untouched definition (the
wrap replaces only the `export default X;` statement). -/
theorem C8_sanitize_unreachable_but_preserving :
    (validateJSX initPatternState c8input).1.isValid = false
    ∧ (validateJSX initPatternState c8input).1.sanitizedCode = none
    ∧ sContains (sanitizeCode c8input) "const X = () =>" = true
    ∧ sContains (sanitizeCode c8input) "const OriginalX = X;" = true := by
  refine ⟨?_, ?_, ?_, ?_⟩ <;> decide

/-! ## Claim C9. -/

/-- Claim C9, counterexample.  Two generation requests with distinct prompts
(`"Aa"` and `"BB"`) processed at the same `Date.now()` millisecond are
assigned the SAME identity (`simpleHash` collides on them, exactly as Java's
`31*h + c` does), refuting "any two generation requests are assigned distinct
identities". -/
theorem C9_counterexample :
    (("Aa" : String) == "BB") = false ∧
    generatePanelId "Aa" 1700000000000 = generatePanelId "BB" 1700000000000 := by
  exact ⟨by decide, rfl⟩

/-- Claim C9 as amended (status: corrected).  The derived identity is a
deterministic function of the prompt's hash and the timestamp (prompts with
equal `simpleHash` processed at the same timestamp receive the same identity);
distinctness of identities is NOT guaranteed for requests sharing a timestamp
— neither for identical prompts nor, by hash collision, for distinct ones. -/
theorem C9_amended_id_determined_by_hash_and_timestamp (p₁ p₂ : String) (t : Nat)
    (h : simpleHash p₁ = simpleHash p₂) :
    generatePanelId p₁ t = generatePanelId p₂ t := by
  simp [generatePanelId, h]

/-- Witness for the amended C9 at the colliding prompts. -/
theorem C9_amended_id_determined_by_hash_and_timestamp_witness :
    simpleHash "Aa" = simpleHash "BB" ∧
    generatePanelId "Aa" 42 = generatePanelId "BB" 42 :=
  ⟨by decide, C9_amended_id_determined_by_hash_and_timestamp "Aa" "BB" 42 (by decide)⟩

/-! ## Helper lemmas about the compiler and the queues. -/

/-- `compileComponent` never revokes a URL. -/
theorem compileComponent_released (env : CompileEnv) (cst : CompilerSt)
    (jsxCode : String) :
    ((compileComponent env cst jsxCode).2).released = cst.released := by
  unfold compileComponent
  split
  · rfl
  · split <;> try rfl
    split <;> rfl

/-- Erasing a freshly appended element restores the list. -/
theorem queue_append_erase (l : List String) (a : String) (h : a ∉ l) :
    (l ++ [a]).erase a = l := by
  rw [List.erase_append_right _ h, List.erase_cons_head]
  simp

/-- Frame lemma: a failing `registerPanelFromJSX` touches neither map, revokes
nothing, and emits nothing (only the URL counter may have advanced, on the
load-failure path, leaking the fresh URL). -/
theorem register_fail_frame (env : CompileEnv) (now : Nat) (st : RegistrySt)
    (id jsxCode : String) (ov : MetaOverride) (e : String)
    (h : (registerPanelFromJSX env now st id jsxCode ov).1 = .error e) :
    (registerPanelFromJSX env now st id jsxCode ov).2.panels = st.panels
    ∧ (registerPanelFromJSX env now st id jsxCode ov).2.componentCache = st.componentCache
    ∧ (registerPanelFromJSX env now st id jsxCode ov).2.comp.released = st.comp.released
    ∧ (registerPanelFromJSX env now st id jsxCode ov).2.events = st.events := by
  have hrel := compileComponent_released env st.comp jsxCode
  simp only [registerPanelFromJSX] at h ⊢
  by_cases hcond : (compileComponent env st.comp jsxCode).1.success = false ∨
      (compileComponent env st.comp jsxCode).1.moduleUrl.isNone = true
  · rw [if_pos hcond] at h ⊢
    exact ⟨rfl, rfl, hrel, rfl⟩
  · rw [if_neg hcond] at h ⊢
    cases hl : env.load ((compileComponent env st.comp jsxCode).1.moduleUrl.getD "") with
    | error e' => exact ⟨rfl, rfl, hrel, rfl⟩
    | ok component =>
      rw [hl] at h
      simp at h

/-! ## Claim C3. -/

/-- A registry holding one panel `p` (module URL `blob:0`), produced by a
successful registration. -/
def c3base : RegistrySt := (registerPanelFromJSX okEnv 5 initRegistry "p" "x" {}).2

/-- Claim C3, counterexample.  Before the failing call, `p`'s cache entry
holds the unreleased reference `blob:0`; `updatePanel` with blank source fails
at the compile step — yet afterwards `blob:0` HAS been released (while both
maps still hold the old entry pointing at it).  The previously stored entry's
"still-unreleased loadable reference" is not as it was before the call. -/
theorem C3_counterexample :
    c3base.comp.released = []
    ∧ lookupA c3base.componentCache "p" = some ⟨0, "blob:0", 5, "x"⟩
    ∧ (updatePanel okEnv 7 c3base "p" "").1 =
        Except.error "Compilation failed: JSX code cannot be empty"
    ∧ (updatePanel okEnv 7 c3base "p" "").2.componentCache = c3base.componentCache
    ∧ (updatePanel okEnv 7 c3base "p" "").2.comp.released = ["blob:0"] :=
  ⟨rfl, rfl, rfl, rfl, rfl⟩

/-- Claim C3 as amended (status: corrected).  Failure atomicity holds for the
maps, but not for the reference: (1) a failing `registerPanelFromJSX` leaves
the panel map, the component cache, the set of released references, and the
emitted events exactly as they were; (2) `updatePanel` on an unknown identity
throws `Panel <id> not found` with the state entirely unchanged; (3) a failing
`updatePanel` on an existing identity leaves both maps and the events
unchanged, but the previously cached entry's loadable reference has already
been released (it was revoked before the compile was attempted). -/
theorem C3_amended_failure_atomicity (env : CompileEnv) (now : Nat)
    (st : RegistrySt) (id jsxCode : String) (ov : MetaOverride) :
    (∀ e, (registerPanelFromJSX env now st id jsxCode ov).1 = .error e →
      (registerPanelFromJSX env now st id jsxCode ov).2.panels = st.panels
      ∧ (registerPanelFromJSX env now st id jsxCode ov).2.componentCache = st.componentCache
      ∧ (registerPanelFromJSX env now st id jsxCode ov).2.comp.released = st.comp.released
      ∧ (registerPanelFromJSX env now st id jsxCode ov).2.events = st.events)
    ∧ (lookupA st.panels id = none →
      updatePanel env now st id jsxCode =
        (.error ("Panel " ++ id ++ " not found"), st))
    ∧ (∀ pd ce e, lookupA st.panels id = some pd →
      lookupA st.componentCache id = some ce →
      (updatePanel env now st id jsxCode).1 = .error e →
      (updatePanel env now st id jsxCode).2.panels = st.panels
      ∧ (updatePanel env now st id jsxCode).2.componentCache = st.componentCache
      ∧ (updatePanel env now st id jsxCode).2.events = st.events
      ∧ (updatePanel env now st id jsxCode).2.comp.released =
          (cleanupModuleUrl st.comp ce.moduleUrl).released) := by
  refine ⟨fun e h => register_fail_frame env now st id jsxCode ov e h, ?_, ?_⟩
  · intro hnone
    unfold updatePanel
    rw [hnone]
  · intro pd ce e hpd hce h
    have hkey : updatePanel env now st id jsxCode =
        (match (registerPanelFromJSX env now
            { st with comp := cleanupModuleUrl st.comp ce.moduleUrl } id jsxCode
            ⟨some pd.metadata.createdAt, some now, some pd.metadata.creator,
             some pd.metadata.dependencies⟩).1 with
         | .error e' => (.error e',
            (registerPanelFromJSX env now
              { st with comp := cleanupModuleUrl st.comp ce.moduleUrl } id jsxCode
              ⟨some pd.metadata.createdAt, some now, some pd.metadata.creator,
               some pd.metadata.dependencies⟩).2)
         | .ok c => (.ok c,
            { (registerPanelFromJSX env now
                { st with comp := cleanupModuleUrl st.comp ce.moduleUrl } id jsxCode
                ⟨some pd.metadata.createdAt, some now, some pd.metadata.creator,
                 some pd.metadata.dependencies⟩).2 with
              events := (registerPanelFromJSX env now
                { st with comp := cleanupModuleUrl st.comp ce.moduleUrl } id jsxCode
                ⟨some pd.metadata.createdAt, some now, some pd.metadata.creator,
                 some pd.metadata.dependencies⟩).2.events ++ [id] })) := by
      unfold updatePanel
      rw [hpd, hce]
      show (match registerPanelFromJSX env now
          { st with comp := cleanupModuleUrl st.comp ce.moduleUrl } id jsxCode
          ⟨some pd.metadata.createdAt, some now, some pd.metadata.creator,
           some pd.metadata.dependencies⟩ with
        | (Except.error e', st2) => (Except.error e', st2)
        | (Except.ok c, st2) => (Except.ok c, { st2 with events := st2.events ++ [id] })) = _
      rcases hreg : registerPanelFromJSX env now
          { st with comp := cleanupModuleUrl st.comp ce.moduleUrl } id jsxCode
          ⟨some pd.metadata.createdAt, some now, some pd.metadata.creator,
           some pd.metadata.dependencies⟩ with ⟨res, st2⟩
      cases res <;> rfl
    rw [hkey] at h ⊢
    cases hr : (registerPanelFromJSX env now
        { st with comp := cleanupModuleUrl st.comp ce.moduleUrl } id jsxCode
        ⟨some pd.metadata.createdAt, some now, some pd.metadata.creator,
         some pd.metadata.dependencies⟩).1 with
    | error e' =>
      have hf := register_fail_frame env now
        { st with comp := cleanupModuleUrl st.comp ce.moduleUrl } id jsxCode
        ⟨some pd.metadata.createdAt, some now, some pd.metadata.creator,
         some pd.metadata.dependencies⟩ e' hr
      exact ⟨hf.1, hf.2.1, hf.2.2.2, hf.2.2.1⟩
    | ok c =>
      rw [hr] at h
      simp at h

/-- Witness for the amended C3: all three parts applied at concrete inputs
(a compile-failure registration, an unknown-identity update, and the failing
update over `c3base`). -/
theorem C3_amended_failure_atomicity_witness :
    ((registerPanelFromJSX failEnv 0 initRegistry "q" "x" {}).2.panels = []
      ∧ (registerPanelFromJSX failEnv 0 initRegistry "q" "x" {}).2.comp.released = [])
    ∧ updatePanel okEnv 3 initRegistry "q" "x" =
        (.error "Panel q not found", initRegistry)
    ∧ ((updatePanel okEnv 7 c3base "p" "").2.componentCache = c3base.componentCache
      ∧ (updatePanel okEnv 7 c3base "p" "").2.comp.released =
          (cleanupModuleUrl c3base.comp "blob:0").released) := by
  have h1 := (C3_amended_failure_atomicity failEnv 0 initRegistry "q" "x" {}).1
    "Compilation failed: boom" rfl
  have h2 := (C3_amended_failure_atomicity okEnv 3 initRegistry "q" "x" {}).2.1 rfl
  have h3 := (C3_amended_failure_atomicity okEnv 7 c3base "p" "" {}).2.2
    { id := "p", name := "Component", jsxCode := "x", compiledCode := some "x",
      component := 0,
      metadata := { createdAt := 5, updatedAt := 5, creator := "ai", dependencies := [] } }
    ⟨0, "blob:0", 5, "x"⟩ "Compilation failed: JSX code cannot be empty" rfl rfl rfl
  exact ⟨⟨h1.1, h1.2.2.1⟩, h2, ⟨h3.2.1, h3.2.2.2⟩⟩

/-! ## Claim C4. -/

/-- Claim C4 (status: confirmed).  For every identity not already in flight,
a failing `updateComponent` — whether the compile step fails (first part) or
the load step fails (second part) — appends exactly one `panel-hmr-error`
event carrying that identity and the error message, leaves the cached entry
returned by `getComponent` for that identity unchanged (the whole cache map is
unchanged), and restores the update queue; the function is total (the
`try/catch` never rethrows to the host). -/
theorem C4_update_failure_one_event_cache_intact (env : CompileEnv) (now : Nat)
    (st : HMRSt) (panelId jsxCode : String) (hq : panelId ∉ st.updateQueue) :
    ((compileComponent env st.comp jsxCode).1.success = false →
      (updateComponent env now st panelId jsxCode).events =
        st.events ++ [.failure panelId ("Compilation failed: " ++
          (compileComponent env st.comp jsxCode).1.error.getD "undefined")]
      ∧ (updateComponent env now st panelId jsxCode).componentCache = st.componentCache
      ∧ (updateComponent env now st panelId jsxCode).updateQueue = st.updateQueue)
    ∧ (∀ url e, (compileComponent env st.comp jsxCode).1.success = true →
      (compileComponent env st.comp jsxCode).1.moduleUrl = some url →
      env.load url = .error e →
      (updateComponent env now st panelId jsxCode).events =
        st.events ++ [.failure panelId ("Component loading failed: " ++ e)]
      ∧ (updateComponent env now st panelId jsxCode).componentCache = st.componentCache
      ∧ (updateComponent env now st panelId jsxCode).updateQueue = st.updateQueue) := by
  have hq' : st.updateQueue.contains panelId = false := by simpa using hq
  have herase := queue_append_erase st.updateQueue panelId hq
  constructor
  · intro hfail
    simp only [updateComponent, hq', Bool.false_eq_true, if_false]
    rw [if_pos (Or.inl hfail)]
    exact ⟨rfl, rfl, herase⟩
  · intro url e hok hurl hload
    simp only [updateComponent, hq', Bool.false_eq_true, if_false]
    rw [if_neg (by simp [hok, hurl])]
    rw [hurl]
    simp only [Option.getD_some]
    rw [hload]
    exact ⟨rfl, rfl, herase⟩

/-- Witness for C4: the compile-failure part at `failEnv` and the load-failure
part at an environment whose module loading fails. -/
theorem C4_update_failure_one_event_cache_intact_witness :
    ((updateComponent failEnv 9 initHMR "p" "x").events =
        [HMREvent.failure "p" "Compilation failed: boom"]
      ∧ (updateComponent failEnv 9 initHMR "p" "x").componentCache = [])
    ∧ ((updateComponent ⟨fun s => .ok s, fun _ => .error "no default export"⟩ 9
          initHMR "p" "x").events =
        [HMREvent.failure "p" "Component loading failed: no default export"]) := by
  have h1 := (C4_update_failure_one_event_cache_intact failEnv 9 initHMR "p" "x"
    (by decide)).1 rfl
  have h2 := (C4_update_failure_one_event_cache_intact
    ⟨fun s => .ok s, fun _ => .error "no default export"⟩ 9 initHMR "p" "x"
    (by decide)).2 "blob:0" "no default export" rfl rfl rfl
  refine ⟨⟨?_, h1.2.1⟩, ?_⟩
  · simpa using h1.1
  · simpa using h2.1

/-! ## Claim C5. -/

/-- The observable state while a first `updateComponent("p", ...)` call is
suspended at its compile `await`: the in-flight marker `p` is in
`updateQueue`.  (JavaScript is single-threaded, so a second call issued during
that suspension runs to completion against exactly this state.) -/
def c5mid : HMRSt :=
  { componentCache := [], updateQueue := ["p"], comp := ⟨0, []⟩, events := [] }

/-- Claim C5 (status: code_bug).  A second `updateComponent` call for an
in-flight identity does return without compiling, without touching the cache
and without emitting events — but it does NOT leave the in-flight marker in
place: the `finally` clause runs on the early return too and deletes the
first call's marker (first two conjuncts).  Consequently a third call for the
same identity, issued while the first is still unresolved, passes the dedup
check and performs a full update (third conjunct) — two updates are then in
flight, contradicting the claimed mutual exclusion. -/
theorem C5_dropped_call_clears_in_flight_marker :
    updateComponent okEnv 9 c5mid "p" "x" = { c5mid with updateQueue := [] }
    ∧ ((updateComponent okEnv 9 c5mid "p" "x").updateQueue.contains "p") = false
    ∧ (updateComponent okEnv 9 (updateComponent okEnv 9 c5mid "p" "x") "p" "x").events =
        [HMREvent.update "p"] := by
  refine ⟨rfl, by decide, rfl⟩

/-! ## Claim C10: key-synchronization of the registry's two maps. -/

/-- The registry operations whose arbitrary sequences claim C10 quantifies
over, each carrying the clock value at which it runs. -/
inductive RegOp where
  | register (now : Nat) (id jsxCode : String) (ov : MetaOverride)
  | update (now : Nat) (id jsxCode : String)
  | remove (id : String)

/-- Run one operation (callers catch the thrown errors; only the resulting
state matters for the invariant). -/
def applyOp (env : CompileEnv) (st : RegistrySt) : RegOp → RegistrySt
  | .register now id jsxCode ov => (registerPanelFromJSX env now st id jsxCode ov).2
  | .update now id jsxCode => (updatePanel env now st id jsxCode).2
  | .remove id => removePanel st id

/-- Run a sequence of operations. -/
def applyOps (env : CompileEnv) (st : RegistrySt) (ops : List RegOp) : RegistrySt :=
  ops.foldl (applyOp env) st

/-- The invariant: `panels` and `componentCache` hold exactly the same keys,
in the same (insertion) order. -/
def keyInv (st : RegistrySt) : Prop :=
  st.panels.map Prod.fst = st.componentCache.map Prod.fst

/-- Overwriting under the same key in two key-equal association lists keeps
their key lists equal. -/
theorem keys_setA_congr {α β : Type} (l₁ : List (String × α)) (l₂ : List (String × β))
    (k : String) (v : α) (w : β) (h : l₁.map Prod.fst = l₂.map Prod.fst) :
    (setA l₁ k v).map Prod.fst = (setA l₂ k w).map Prod.fst := by
  induction l₁ generalizing l₂ with
  | nil =>
    cases l₂ with
    | nil => rfl
    | cons y ys => simp at h
  | cons x xs ih =>
    obtain ⟨xk, xv⟩ := x
    cases l₂ with
    | nil => simp at h
    | cons y ys =>
      obtain ⟨yk, yv⟩ := y
      simp only [List.map_cons, List.cons.injEq] at h
      obtain ⟨hk, ht⟩ := h
      subst hk
      simp only [setA]
      by_cases hx : xk == k
      · simp [hx, ht]
      · simp [hx, ih ys ht]

/-- Deleting the same key from two key-equal association lists keeps their key
lists equal. -/
theorem keys_eraseA_congr {α β : Type} (l₁ : List (String × α)) (l₂ : List (String × β))
    (k : String) (h : l₁.map Prod.fst = l₂.map Prod.fst) :
    (eraseA l₁ k).map Prod.fst = (eraseA l₂ k).map Prod.fst := by
  induction l₁ generalizing l₂ with
  | nil =>
    cases l₂ with
    | nil => rfl
    | cons y ys => simp at h
  | cons x xs ih =>
    obtain ⟨xk, xv⟩ := x
    cases l₂ with
    | nil => simp at h
    | cons y ys =>
      obtain ⟨yk, yv⟩ := y
      simp only [List.map_cons, List.cons.injEq] at h
      obtain ⟨hk, ht⟩ := h
      subst hk
      simp only [eraseA]
      by_cases hx : xk == k
      · simp [hx, ht]
      · simp [hx, ih ys ht]

/-- Key-equal association lists are defined on the same keys. -/
theorem lookupA_isSome_congr {α β : Type} (l₁ : List (String × α)) (l₂ : List (String × β))
    (k : String) (h : l₁.map Prod.fst = l₂.map Prod.fst) :
    (lookupA l₁ k).isSome = (lookupA l₂ k).isSome := by
  induction l₁ generalizing l₂ with
  | nil =>
    cases l₂ with
    | nil => rfl
    | cons y ys => simp at h
  | cons x xs ih =>
    obtain ⟨xk, xv⟩ := x
    cases l₂ with
    | nil => simp at h
    | cons y ys =>
      obtain ⟨yk, yv⟩ := y
      simp only [List.map_cons, List.cons.injEq] at h
      obtain ⟨hk, ht⟩ := h
      subst hk
      simp only [lookupA]
      by_cases hx : xk == k
      · simp [hx]
      · simp [hx, ih ys ht]

/-- `registerPanelFromJSX` preserves the key invariant: on failure it touches
neither map; on success it writes both maps under the same identity. -/
theorem keyInv_register (env : CompileEnv) (now : Nat) (st : RegistrySt)
    (id jsxCode : String) (ov : MetaOverride) (h : keyInv st) :
    keyInv (registerPanelFromJSX env now st id jsxCode ov).2 := by
  by_cases hcond : (compileComponent env st.comp jsxCode).1.success = false ∨
      (compileComponent env st.comp jsxCode).1.moduleUrl.isNone = true
  · simp only [registerPanelFromJSX, keyInv, if_pos hcond]
    exact h
  · simp only [registerPanelFromJSX, keyInv, if_neg hcond]
    cases hl : env.load ((compileComponent env st.comp jsxCode).1.moduleUrl.getD "") with
    | error e => exact h
    | ok component => exact keys_setA_congr _ _ id _ _ h

/-- `updatePanel` preserves the key invariant: an unknown identity changes
nothing; otherwise it defers to `registerPanelFromJSX` (the emitted event does
not touch the maps). -/
theorem keyInv_update (env : CompileEnv) (now : Nat) (st : RegistrySt)
    (id jsxCode : String) (h : keyInv st) :
    keyInv (updatePanel env now st id jsxCode).2 := by
  unfold updatePanel
  cases hpd : lookupA st.panels id with
  | none => exact h
  | some existing =>
    cases hce : lookupA st.componentCache id with
    | none =>
      show keyInv (match registerPanelFromJSX env now st id jsxCode
          ⟨some existing.metadata.createdAt, some now, some existing.metadata.creator,
           some existing.metadata.dependencies⟩ with
        | (Except.error e, st2) => ((Except.error e : Except String Nat), st2)
        | (Except.ok c, st2) => (Except.ok c, { st2 with events := st2.events ++ [id] })).2
      rcases hreg : registerPanelFromJSX env now st id jsxCode
          ⟨some existing.metadata.createdAt, some now, some existing.metadata.creator,
           some existing.metadata.dependencies⟩ with ⟨res, st2⟩
      have hk := keyInv_register env now st id jsxCode
        ⟨some existing.metadata.createdAt, some now, some existing.metadata.creator,
         some existing.metadata.dependencies⟩ h
      rw [hreg] at hk
      cases res with
      | error e => exact hk
      | ok c => exact hk
    | some oldCache =>
      show keyInv (match registerPanelFromJSX env now
          { st with comp := cleanupModuleUrl st.comp oldCache.moduleUrl } id jsxCode
          ⟨some existing.metadata.createdAt, some now, some existing.metadata.creator,
           some existing.metadata.dependencies⟩ with
        | (Except.error e, st2) => ((Except.error e : Except String Nat), st2)
        | (Except.ok c, st2) => (Except.ok c, { st2 with events := st2.events ++ [id] })).2
      rcases hreg : registerPanelFromJSX env now
          { st with comp := cleanupModuleUrl st.comp oldCache.moduleUrl } id jsxCode
          ⟨some existing.metadata.createdAt, some now, some existing.metadata.creator,
           some existing.metadata.dependencies⟩ with ⟨res, st2⟩
      have hk := keyInv_register env now
        { st with comp := cleanupModuleUrl st.comp oldCache.moduleUrl } id jsxCode
        ⟨some existing.metadata.createdAt, some now, some existing.metadata.creator,
         some existing.metadata.dependencies⟩ h
      rw [hreg] at hk
      cases res with
      | error e => exact hk
      | ok c => exact hk

/-- `removePanel` preserves the key invariant: it deletes the identity from
both maps. -/
theorem keyInv_remove (st : RegistrySt) (id : String) (h : keyInv st) :
    keyInv (removePanel st id) := by
  unfold removePanel
  cases hce : lookupA st.componentCache id with
  | none => exact keys_eraseA_congr _ _ id h
  | some cache => exact keys_eraseA_congr _ _ id h

/-- Each operation preserves the key invariant. -/
theorem keyInv_applyOp (env : CompileEnv) (st : RegistrySt) (op : RegOp)
    (h : keyInv st) : keyInv (applyOp env st op) := by
  cases op with
  | register now id jsxCode ov => exact keyInv_register env now st id jsxCode ov h
  | update now id jsxCode => exact keyInv_update env now st id jsxCode h
  | remove id => exact keyInv_remove st id h

/-- Sequences of operations preserve the key invariant. -/
theorem keyInv_applyOps (env : CompileEnv) (ops : List RegOp) (st : RegistrySt)
    (h : keyInv st) : keyInv (applyOps env st ops) := by
  induction ops generalizing st with
  | nil => exact h
  | cons op rest ih => exact ih _ (keyInv_applyOp env st op h)

/-- Claim C10 (status: confirmed).  After any sequence of
`registerPanelFromJSX` / `updatePanel` / `removePanel` operations on a fresh
registry, under any compile/load environment: the panel map and the component
cache hold exactly the same identities in the same order; `getPanel id` is
defined exactly when `getComponent id` is; and the stats' `totalPanels` equals
`cachedComponents`. -/
theorem C10_registry_maps_key_synchronized (env : CompileEnv) (ops : List RegOp) :
    ((applyOps env initRegistry ops).panels.map Prod.fst =
      (applyOps env initRegistry ops).componentCache.map Prod.fst)
    ∧ (∀ id, (getPanel (applyOps env initRegistry ops) id).isSome =
        (getComponent (applyOps env initRegistry ops) id).isSome)
    ∧ (getStats (applyOps env initRegistry ops)).1 =
        (getStats (applyOps env initRegistry ops)).2.1 := by
  have h := keyInv_applyOps env ops initRegistry rfl
  refine ⟨h, fun id => ?_, ?_⟩
  · unfold getPanel getComponent
    have hs := lookupA_isSome_congr _ _ id h
    cases hcp : lookupA (applyOps env initRegistry ops).componentCache id with
    | none =>
      rw [hcp] at hs
      simpa using hs
    | some v =>
      rw [hcp] at hs
      simpa using hs
  · unfold getStats
    have hlen := congrArg List.length h
    simpa using hlen

end UIMadness
